import Mathlib

/-!
Verification of `examples/multimodal-demo/create_test_image.py`.

The script allocates a 400x300 white RGB canvas, draws a blue unfilled
rectangle, three text labels, and a filled ellipse, saves the canvas as
`test-image.png`, and prints a confirmation line.

The embedding has three layers:
* a pixel-level canvas semantics (`Canvas`, `applyOp`, `finalCanvas`)
  mirroring the Pillow drawing calls, with text rendering parametrized by
  an abstract `Font` (glyph bitmaps are backend-dependent; glyphs are
  drawn at non-negative offsets from the anchor, Pillow's default
  left-ascender anchor);
* a step/effect model (`Step`, `run`, `effects`) for the straight-line
  execution with exception propagation;
* a filesystem model (`runScriptFS`) for the save call.
-/

namespace CreateTestImage

/-- An RGB triple, one byte per channel. -/
abbrev RGB := Nat × Nat × Nat

/-- The named colors used by the script, as Pillow resolves them. -/
inductive Color where
  | white
  | blue
  | black
  | lightblue
  deriving DecidableEq, Repr

/-- Pillow's RGB values for the named colors of the script. -/
def Color.rgb : Color → RGB
  | .white => (255, 255, 255)
  | .blue => (0, 0, 255)
  | .black => (0, 0, 0)
  | .lightblue => (173, 216, 230)

/-- A glyph backend: for a string, the list of pixel offsets (relative to
the text anchor, both components non-negative) that the rendered text
covers. -/
def Font := String → List (Nat × Nat)

/-- In-memory raster buffer: fixed dimensions plus a pixel map. -/
structure Canvas where
  width : Nat
  height : Nat
  pix : Int × Int → RGB

/-- The drawing calls made through `ImageDraw.Draw(img)`. -/
inductive DrawOp where
  | rectangle (x0 y0 x1 y1 : Int) (outline : Color) (w : Nat)
  | text (ax ay : Int) (s : String) (fill : Color)
  | ellipse (x0 y0 x1 y1 : Int) (fill outline : Color)
  deriving DecidableEq, Repr

/-- The drawing operations of the script, in source order
(`draw.rectangle`, three `draw.text`, `draw.ellipse` between the last
two texts). -/
def script_ops : List DrawOp :=
  [ .rectangle 50 50 350 250 .blue 3,
    .text 80 100 "AI Workflow CLI" .black,
    .text 80 140 "Multimodal Support" .blue,
    .ellipse 150 180 250 220 .lightblue .blue,
    .text 165 190 "Images" .black ]

/-- Pillow `rectangle([x0,y0,x1,y1], outline=c, width=w)`: the border of
the inclusive box, `w` pixels thick going inward. -/
def rectOutlineB (x0 y0 x1 y1 : Int) (w : Nat) (x y : Int) : Bool :=
  decide (x0 ≤ x ∧ x ≤ x1 ∧ y0 ≤ y ∧ y ≤ y1 ∧
    (x < x0 + w ∨ x1 - w < x ∨ y < y0 + w ∨ y1 - w < y))

/-- Pillow `ellipse([x0,y0,x1,y1], ...)`: membership in the filled
ellipse inscribed in the inclusive bounding box (boundary included),
written with doubled coordinates so the center needs no division. -/
def inEllipseB (x0 y0 x1 y1 x y : Int) : Bool :=
  decide ((2*x - (x0+x1))^2 * (y1-y0)^2 + (2*y - (y0+y1))^2 * (x1-x0)^2
    ≤ (x1-x0)^2 * (y1-y0)^2)

/-- The one-pixel outline of the ellipse: inside, with some 4-neighbor
outside. -/
def ellipseEdgeB (x0 y0 x1 y1 x y : Int) : Bool :=
  inEllipseB x0 y0 x1 y1 x y &&
    !(inEllipseB x0 y0 x1 y1 (x+1) y && inEllipseB x0 y0 x1 y1 (x-1) y &&
      inEllipseB x0 y0 x1 y1 x (y+1) && inEllipseB x0 y0 x1 y1 x (y-1))

/-- Whether rendering string `s` anchored at `(ax, ay)` covers pixel
`(x, y)` under the glyph backend `font`. -/
def textPaintsB (font : Font) (s : String) (ax ay x y : Int) : Bool :=
  (font s).any fun d => x == ax + (d.1 : Int) && y == ay + (d.2 : Int)

/-- One Pillow drawing call, as a pixel-map update. Dimensions are
untouched: `ImageDraw` never resizes the image. -/
def applyOp (font : Font) (c : Canvas) (op : DrawOp) : Canvas :=
  match op with
  | .rectangle x0 y0 x1 y1 outline w =>
      { c with pix := fun p =>
          if rectOutlineB x0 y0 x1 y1 w p.1 p.2 then outline.rgb else c.pix p }
  | .text ax ay s fill =>
      { c with pix := fun p =>
          if textPaintsB font s ax ay p.1 p.2 then fill.rgb else c.pix p }
  | .ellipse x0 y0 x1 y1 fill outline =>
      { c with pix := fun p =>
          if inEllipseB x0 y0 x1 y1 p.1 p.2 then
            (if ellipseEdgeB x0 y0 x1 y1 p.1 p.2 then outline.rgb else fill.rgb)
          else c.pix p }

/-- Apply a list of drawing calls in order. -/
def applyOps (font : Font) (c : Canvas) (ops : List DrawOp) : Canvas :=
  ops.foldl (applyOp font) c

/-- `Image.new('RGB', (400, 300), color='white')`. -/
def initialCanvas : Canvas :=
  { width := 400, height := 300, pix := fun _ => Color.white.rgb }

/-- The canvas after all drawing calls of the script. -/
def finalCanvas (font : Font) : Canvas :=
  applyOps font initialCanvas script_ops

/-! ### Step and effect model

The script is a straight line of statements; an uncaught exception at any
statement aborts execution there (nothing later runs) and propagates to
the process boundary. `ok` says which statements succeed. -/

/-- The statements of the script, one per line with an observable action. -/
inductive Step where
  | newImage
  | drawRect
  | drawTitle
  | drawSubtitle
  | drawEllipse
  | drawImagesLabel
  | saveFile
  | printMsg
  deriving DecidableEq, Repr

/-- The statements in source order. -/
def scriptSteps : List Step :=
  [ .newImage, .drawRect, .drawTitle, .drawSubtitle, .drawEllipse,
    .drawImagesLabel, .saveFile, .printMsg ]

/-- The statements that execute to completion when `ok` tells which
statements succeed: everything up to (excluding) the first failure. -/
def run (ok : Step → Bool) : List Step :=
  scriptSteps.takeWhile ok

/-- Process outcome: the first failing statement's error propagated
unchanged, or success. -/
def result (ok : Step → Bool) : Except Step Unit :=
  match scriptSteps.find? (fun t => !ok t) with
  | some t => .error t
  | none => .ok ()

/-- Externally visible side effects. -/
inductive Effect where
  | save (name : String)
  | stdout (line : String)
  deriving DecidableEq, Repr

/-- The side effect of a statement, if any. -/
def effectOf : Step → Option Effect
  | .saveFile => some (.save "test-image.png")
  | .printMsg => some (.stdout "Created test-image.png")
  | _ => none

/-- The side effects of a run, in order. -/
def effects (ok : Step → Bool) : List Effect :=
  (run ok).filterMap effectOf

/-! ### Filesystem model for `img.save('test-image.png')` -/

/-- The output filename (relative: the current working directory). -/
def outputName : String := "test-image.png"

/-- A directory state: filename to PNG content; the content of the PNG is
modelled by the canvas it encodes. -/
def FS := String → Option Canvas

/-- The directory state after one successful run of the script:
`test-image.png` is created or overwritten with the encoded final canvas,
and nothing else is touched. -/
def runScriptFS (font : Font) (fs : FS) : FS :=
  fun n => if n = outputName then some (finalCanvas font) else fs n

/-- The text drawing calls of the script, in order, as
(anchor x, anchor y, string, fill color). -/
def textCalls : List (Int × Int × String × Color) :=
  script_ops.filterMap fun op =>
    match op with
    | .text ax ay s c => some (ax, ay, s, c)
    | _ => none

/-! ### Helper lemmas -/

theorem textPaintsB_eq_false_of_lt (font : Font) (s : String) (ax ay x y : Int)
    (h : x < ax ∨ y < ay) : textPaintsB font s ax ay x y = false := by
  unfold textPaintsB
  rw [List.any_eq_false]
  intro d _
  simp only [Bool.and_eq_true, beq_iff_eq, not_and]
  intro hx hy
  omega

theorem textPaintsB_eq_false_of_not_mem (font : Font) (s : String) (ax ay : Int)
    (dx dy : Nat) (h : (dx, dy) ∉ font s) :
    textPaintsB font s ax ay (ax + dx) (ay + dy) = false := by
  unfold textPaintsB
  rw [List.any_eq_false]
  intro d hd
  simp only [Bool.and_eq_true, beq_iff_eq, not_and]
  intro h1 h2
  have hd1 : d.1 = dx := by omega
  have hd2 : d.2 = dy := by omega
  exact h (by rw [← hd1, ← hd2]; exact hd)

theorem applyOp_width (font : Font) (c : Canvas) (op : DrawOp) :
    (applyOp font c op).width = c.width := by
  cases op <;> rfl

theorem applyOp_height (font : Font) (c : Canvas) (op : DrawOp) :
    (applyOp font c op).height = c.height := by
  cases op <;> rfl

theorem applyOps_width (font : Font) (ops : List DrawOp) (c : Canvas) :
    (applyOps font c ops).width = c.width := by
  induction ops generalizing c with
  | nil => rfl
  | cons op ops ih => rw [applyOps, List.foldl_cons, ← applyOps, ih, applyOp_width]

theorem applyOps_height (font : Font) (ops : List DrawOp) (c : Canvas) :
    (applyOps font c ops).height = c.height := by
  induction ops generalizing c with
  | nil => rfl
  | cons op ops ih => rw [applyOps, List.foldl_cons, ← applyOps, ih, applyOp_height]

/-! ### Claims -/

/-- C1: the script allocates exactly one canvas, 400x300, RGB, filled
white; every drawing operation preserves the dimensions (for every prefix
of the drawing calls the canvas is still 400x300), so the image written
to the PNG file has dimensions exactly 400x300. -/
theorem canvas_dims_invariant (font : Font) (n : Nat) (fs : FS) :
    initialCanvas.width = 400 ∧ initialCanvas.height = 300 ∧
    (∀ p, initialCanvas.pix p = Color.white.rgb) ∧
    (applyOps font initialCanvas (script_ops.take n)).width = 400 ∧
    (applyOps font initialCanvas (script_ops.take n)).height = 300 ∧
    (∀ img, runScriptFS font fs outputName = some img →
      img.width = 400 ∧ img.height = 300) := by
  refine ⟨rfl, rfl, fun _ => rfl, ?_, ?_, ?_⟩
  · rw [applyOps_width]; rfl
  · rw [applyOps_height]; rfl
  · intro img himg
    have : some (finalCanvas font) = some img := by
      rw [← himg]; simp [runScriptFS]
    have himg2 : finalCanvas font = img := by injection this
    rw [← himg2]
    exact ⟨applyOps_width .., applyOps_height ..⟩

theorem canvas_dims_invariant_witness :
    (finalCanvas (fun _ => [])).width = 400 ∧
    (finalCanvas (fun _ => [])).height = 300 :=
  (canvas_dims_invariant (fun _ => []) 5 (fun _ => none)).2.2.2.2.2
    (finalCanvas (fun _ => [])) (by simp [runScriptFS])

/-- C4: exactly three text labels are rendered, in this order:
"AI Workflow CLI" anchored at (80,100) in black, "Multimodal Support"
anchored at (80,140) in blue, "Images" anchored at (165,190) in black. -/
theorem texts_in_order :
    textCalls = [(80, 100, "AI Workflow CLI", Color.black),
                 (80, 140, "Multimodal Support", Color.blue),
                 (165, 190, "Images", Color.black)] := by
  rfl

/-- C2: the first drawing operation is the unfilled rectangle with
corners (50,50) and (350,250), outline blue, stroke width 3; after it,
every stroke pixel is blue and every interior pixel away from the stroke
(53 ≤ x ≤ 347, 53 ≤ y ≤ 247) is still white. -/
theorem first_op_rectangle (font : Font) (x y : Int) :
    script_ops.head? = some (.rectangle 50 50 350 250 Color.blue 3) ∧
    (rectOutlineB 50 50 350 250 3 x y = true →
      (applyOps font initialCanvas (script_ops.take 1)).pix (x, y) = Color.blue.rgb) ∧
    (53 ≤ x → x ≤ 347 → 53 ≤ y → y ≤ 247 →
      (applyOps font initialCanvas (script_ops.take 1)).pix (x, y) = Color.white.rgb) := by
  refine ⟨rfl, ?_, ?_⟩
  · intro h
    simp only [script_ops, List.take, applyOps, List.foldl, applyOp, h, if_true]
  · intro h1 h2 h3 h4
    have h : rectOutlineB 50 50 350 250 3 x y = false := by
      simp only [rectOutlineB, decide_eq_false_iff_not]
      omega
    simp only [script_ops, List.take, applyOps, List.foldl, applyOp, h,
      Bool.false_eq_true, if_false]
    rfl

theorem first_op_rectangle_witness :
    (applyOps (fun _ => []) initialCanvas (script_ops.take 1)).pix (200, 50)
        = Color.blue.rgb ∧
    (applyOps (fun _ => []) initialCanvas (script_ops.take 1)).pix (200, 150)
        = Color.white.rgb :=
  ⟨(first_op_rectangle (fun _ => []) 200 50).2.1 (by decide),
   (first_op_rectangle (fun _ => []) 200 150).2.2
     (by decide) (by decide) (by decide) (by decide)⟩

/-- C3: the filled ellipse bounded by (150,180)-(250,220), fill light
blue, outline blue, is the fourth drawing call, after the "Multimodal
Support" text and before the "Images" text; consequently any ellipse
pixel covered by the rendered "Images" text shows the text's black in the
final canvas (the text is on top of the ellipse). -/
theorem ellipse_between_texts (font : Font) (x y : Int)
    (_hin : inEllipseB 150 180 250 220 x y = true)
    (htxt : textPaintsB font "Images" 165 190 x y = true) :
    script_ops[2]? = some (.text 80 140 "Multimodal Support" Color.blue) ∧
    script_ops[3]? = some (.ellipse 150 180 250 220 Color.lightblue Color.blue) ∧
    script_ops[4]? = some (.text 165 190 "Images" Color.black) ∧
    (finalCanvas font).pix (x, y) = Color.black.rgb := by
  refine ⟨rfl, rfl, rfl, ?_⟩
  simp only [finalCanvas, applyOps, script_ops, List.foldl, applyOp, htxt, if_true]

/-- A glyph backend whose "Images" covers exactly the anchor pixel. -/
def anchorFont : Font := fun s => if s = "Images" then [(0, 0)] else []

theorem ellipse_between_texts_witness :
    (finalCanvas anchorFont).pix (165, 190) = Color.black.rgb :=
  (ellipse_between_texts anchorFont 165 190 (by decide) (by decide)).2.2.2

/-- C6: in the final canvas, pixel (0,0) is white and pixel (200,50) on
the rectangle's top edge is blue, for every glyph backend (all text
anchors are below both pixels); pixel (200,200), the ellipse's center, is
light blue for every glyph backend whose "Images" does not cover offset
(35,10) from its anchor (glyph shapes are backend-dependent; Pillow's
default font leaves that corner of the text box blank). -/
theorem checked_pixels (font : Font) (h : (35, 10) ∉ font "Images") :
    (finalCanvas font).pix (0, 0) = Color.white.rgb ∧
    (finalCanvas font).pix (200, 50) = Color.blue.rgb ∧
    (finalCanvas font).pix (200, 200) = Color.lightblue.rgb := by
  refine ⟨?_, ?_, ?_⟩
  · have t1 := textPaintsB_eq_false_of_lt font "AI Workflow CLI" 80 100 0 0
      (Or.inl (by norm_num))
    have t2 := textPaintsB_eq_false_of_lt font "Multimodal Support" 80 140 0 0
      (Or.inl (by norm_num))
    have t3 := textPaintsB_eq_false_of_lt font "Images" 165 190 0 0
      (Or.inl (by norm_num))
    simp only [finalCanvas, applyOps, script_ops, List.foldl, applyOp, t1, t2, t3]
    decide
  · have t1 := textPaintsB_eq_false_of_lt font "AI Workflow CLI" 80 100 200 50
      (Or.inr (by norm_num))
    have t2 := textPaintsB_eq_false_of_lt font "Multimodal Support" 80 140 200 50
      (Or.inr (by norm_num))
    have t3 := textPaintsB_eq_false_of_lt font "Images" 165 190 200 50
      (Or.inr (by norm_num))
    simp only [finalCanvas, applyOps, script_ops, List.foldl, applyOp, t1, t2, t3]
    decide
  · have t3 : textPaintsB font "Images" 165 190 200 200 = false := by
      have := textPaintsB_eq_false_of_not_mem font "Images" 165 190 35 10 h
      norm_num at this
      exact this
    have e1 : inEllipseB 150 180 250 220 200 200 = true := by decide
    have e2 : ellipseEdgeB 150 180 250 220 200 200 = false := by decide
    simp only [finalCanvas, applyOps, script_ops, List.foldl, applyOp, t3]
    simp [e1, e2]

theorem checked_pixels_witness :
    (finalCanvas (fun _ => [])).pix (0, 0) = Color.white.rgb ∧
    (finalCanvas (fun _ => [])).pix (200, 50) = Color.blue.rgb ∧
    (finalCanvas (fun _ => [])).pix (200, 200) = Color.lightblue.rgb :=
  checked_pixels (fun _ => []) (by simp)

/-- C5: the save statement comes after every drawing statement; it writes
the encoded canvas to `test-image.png` in the working directory,
overwriting any existing file of that name, and touches no other file. -/
theorem save_overwrites_only_output (font : Font) (fs : FS) (n : String)
    (hn : n ≠ outputName) :
    outputName = "test-image.png" ∧
    scriptSteps.take 6 = [.newImage, .drawRect, .drawTitle, .drawSubtitle,
      .drawEllipse, .drawImagesLabel] ∧
    scriptSteps[6]? = some .saveFile ∧
    runScriptFS font fs outputName = some (finalCanvas font) ∧
    runScriptFS font fs n = fs n := by
  exact ⟨rfl, rfl, rfl, by simp [runScriptFS], by simp [runScriptFS, hn]⟩

theorem save_overwrites_only_output_witness :
    runScriptFS (fun _ => []) (fun _ => none) "other.png" = none :=
  (save_overwrites_only_output (fun _ => []) (fun _ => none) "other.png"
    (by decide)).2.2.2.2

theorem mem_takeWhile_cons_split (ok : Step → Bool) (a : Step) (l : List Step)
    (hmem : Step.printMsg ∈ (a :: l).takeWhile ok) (hne : Step.printMsg ≠ a) :
    ok a = true ∧ Step.printMsg ∈ l.takeWhile ok := by
  rw [List.takeWhile_cons] at hmem
  by_cases hb : ok a = true
  · rw [if_pos hb] at hmem
    rcases List.mem_cons.mp hmem with h | h
    · exact absurd h hne
    · exact ⟨hb, h⟩
  · rw [if_neg hb] at hmem
    exact absurd hmem (List.not_mem_nil _)

theorem printMsg_mem_run_iff (ok : Step → Bool) :
    Step.printMsg ∈ run ok ↔ ∀ s ∈ scriptSteps, ok s = true := by
  constructor
  · intro h
    simp only [run, scriptSteps] at h
    obtain ⟨h1, h⟩ := mem_takeWhile_cons_split ok _ _ h (by decide)
    obtain ⟨h2, h⟩ := mem_takeWhile_cons_split ok _ _ h (by decide)
    obtain ⟨h3, h⟩ := mem_takeWhile_cons_split ok _ _ h (by decide)
    obtain ⟨h4, h⟩ := mem_takeWhile_cons_split ok _ _ h (by decide)
    obtain ⟨h5, h⟩ := mem_takeWhile_cons_split ok _ _ h (by decide)
    obtain ⟨h6, h⟩ := mem_takeWhile_cons_split ok _ _ h (by decide)
    obtain ⟨h7, h⟩ := mem_takeWhile_cons_split ok _ _ h (by decide)
    have h8 : ok .printMsg = true := List.mem_takeWhile_imp h
    intro s hs
    simp only [scriptSteps, List.mem_cons, List.not_mem_nil, or_false] at hs
    rcases hs with rfl | rfl | rfl | rfl | rfl | rfl | rfl | rfl <;> assumption
  · intro h
    rw [run, List.takeWhile_eq_self_iff.mpr h]
    decide

/-- C7: on a fully successful run the effects are exactly the save of
`test-image.png` followed by the single stdout line
`Created test-image.png`; conversely, every stdout line that a run emits
is that line, and it is emitted only when every statement, the file write
included, succeeded — on any failure no confirmation line is printed. -/
theorem stdout_line (ok : Step → Bool) :
    ((∀ s ∈ scriptSteps, ok s = true) →
      effects ok = [.save "test-image.png", .stdout "Created test-image.png"]) ∧
    (∀ l, Effect.stdout l ∈ effects ok →
      l = "Created test-image.png" ∧ ∀ s ∈ scriptSteps, ok s = true) := by
  constructor
  · intro h
    have hrun : run ok = scriptSteps := List.takeWhile_eq_self_iff.mpr h
    rw [effects, hrun]
    rfl
  · intro l hl
    rw [effects, List.mem_filterMap] at hl
    obtain ⟨s, hs, hss⟩ := hl
    cases s <;>
      simp only [effectOf, Option.some.injEq, Effect.stdout.injEq,
        reduceCtorEq] at hss
    exact ⟨hss.symm, (printMsg_mem_run_iff ok).mp hs⟩

theorem stdout_line_witness :
    effects (fun _ => true)
      = [.save "test-image.png", .stdout "Created test-image.png"] :=
  (stdout_line (fun _ => true)).1 (by simp)

/-- C8: a failure at any statement is propagated unchanged — the process
result is the error of the first failing statement — and execution stops:
the failing statement is not among the completed ones, the completed
statements are a duplicate-free sublist of the script (no retry), and
every effect a run can produce is the save or the stdout line — there is
no file-deletion effect, so no partially written file is cleaned up. -/
theorem failure_propagates (ok : Step → Bool) (s : Step)
    (h : scriptSteps.find? (fun t => !ok t) = some s) :
    result ok = Except.error s ∧
    s ∉ run ok ∧
    (run ok).Nodup ∧
    List.Sublist (run ok) scriptSteps ∧
    (∀ e ∈ effects ok, e = Effect.save "test-image.png" ∨
      e = Effect.stdout "Created test-image.png") := by
  have hok : ok s = false := by
    have := List.find?_some h
    simp at this
    exact this
  refine ⟨?_, ?_, ?_, List.takeWhile_sublist _, ?_⟩
  · rw [result, h]
  · intro hmem
    have := List.mem_takeWhile_imp hmem
    rw [hok] at this
    exact Bool.false_ne_true this
  · exact (by decide : scriptSteps.Nodup).sublist (List.takeWhile_sublist _)
  · intro e he
    rw [effects, List.mem_filterMap] at he
    obtain ⟨t, _, ht⟩ := he
    cases t <;> simp only [effectOf, Option.some.injEq, reduceCtorEq] at ht <;>
      [skip; skip] <;> first
      | (exact Or.inl ht.symm)
      | (exact Or.inr ht.symm)

theorem failure_propagates_witness :
    result (fun t => !(t == Step.saveFile)) = Except.error Step.saveFile :=
  (failure_propagates (fun t => !(t == Step.saveFile)) Step.saveFile (by decide)).1

/-- C9: the rendered canvas is a function of the glyph backend alone, so
two runs with the same backend are pixel-identical; running the script
twice leaves the same directory state as running it once: one
`test-image.png` holding the final canvas, every other file untouched. -/
theorem deterministic_idempotent (font : Font) (fs : FS) (n : String)
    (hn : n ≠ outputName) :
    runScriptFS font (runScriptFS font fs) = runScriptFS font fs ∧
    runScriptFS font (runScriptFS font fs) outputName = some (finalCanvas font) ∧
    runScriptFS font (runScriptFS font fs) n = fs n := by
  refine ⟨?_, by simp [runScriptFS], by simp [runScriptFS, hn]⟩
  funext m
  by_cases hm : m = outputName <;> simp [runScriptFS, hm]

theorem deterministic_idempotent_witness :
    runScriptFS (fun _ => []) (runScriptFS (fun _ => []) (fun _ => none))
      "other.png" = none :=
  (deterministic_idempotent (fun _ => []) (fun _ => none) "other.png"
    (by decide)).2.2

/-- C10: every drawn primitive lies strictly inside the 400x300 canvas:
every rectangle stroke pixel and every ellipse pixel has
0 < x < 399 and 0 < y < 299 (clear of every edge, so nothing is clipped),
the ellipse stays inside its bounding box (150,180)-(250,220), and every
text anchor is inside the canvas. -/
theorem primitives_in_bounds (x y : Int) :
    (rectOutlineB 50 50 350 250 3 x y = true →
      0 < x ∧ x < 399 ∧ 0 < y ∧ y < 299) ∧
    (inEllipseB 150 180 250 220 x y = true →
      150 ≤ x ∧ x ≤ 250 ∧ 180 ≤ y ∧ y ≤ 220 ∧
      0 < x ∧ x < 399 ∧ 0 < y ∧ y < 299) ∧
    (∀ c ∈ textCalls, 0 ≤ c.1 ∧ c.1 < 400 ∧ 0 ≤ c.2.1 ∧ c.2.1 < 300) := by
  refine ⟨?_, ?_, by decide⟩
  · intro h
    rw [rectOutlineB, decide_eq_true_iff] at h
    omega
  · intro h
    rw [inEllipseB, decide_eq_true_iff] at h
    have hx : (2*x - 400)^2 ≤ 10000 := by nlinarith [sq_nonneg (2*y - 400)]
    have hy : (2*y - 400)^2 ≤ 1600 := by nlinarith [sq_nonneg (2*x - 400)]
    have hx1 : -100 ≤ 2*x - 400 := by nlinarith
    have hx2 : 2*x - 400 ≤ 100 := by nlinarith
    have hy1 : -40 ≤ 2*y - 400 := by nlinarith
    have hy2 : 2*y - 400 ≤ 40 := by nlinarith
    omega

theorem primitives_in_bounds_witness :
    ((0:Int) < 200 ∧ (200:Int) < 399 ∧ (0:Int) < 50 ∧ (50:Int) < 299) ∧
    (150 ≤ (200:Int) ∧ (200:Int) ≤ 250 ∧ 180 ≤ (200:Int) ∧ (200:Int) ≤ 220 ∧
      (0:Int) < 200 ∧ (200:Int) < 399 ∧ (0:Int) < 200 ∧ (200:Int) < 299) :=
  ⟨(primitives_in_bounds 200 50).1 (by decide),
   (primitives_in_bounds 200 200).2.1 (by decide)⟩

end CreateTestImage
